import Mathlib

/-!
Verification development for the hook0 webhook-delivery core: the event
ingestion handler (api, handlers/events.rs) and the outbound delivery
worker loop (output-worker, main.rs), shallowly embedded in Lean.

Timestamps are modelled as natural numbers (seconds), UUIDs as natural
numbers, the relational store as lists of rows, and the statement
timestamp of one worker iteration or one ingest call as a single clock
value passed in explicitly.
-/

namespace Hook0

/-! ## Retry backoff (output-worker/src/main.rs, lines 66 to 72 and 213 to 215) -/

/-- POLLING_SLEEP constant of the worker: 1 second. -/
def POLLING_SLEEP : Nat := 1

/-- MINIMUM_RETRY_DELAY constant of the worker: 5 seconds.  The source doc
comment reads: how long to wait before first retry. -/
def MINIMUM_RETRY_DELAY : Nat := 5

/-- MAXIMUM_RETRY_DELAY constant of the worker: 5 * 60 = 300 seconds. -/
def MAXIMUM_RETRY_DELAY : Nat := 300

/-- Model of the Rust expression u32::try_from(attempt.retry_count).unwrap_or(1):
the conversion from i16 to u32 fails exactly on negative values, which are
replaced by 1; non-negative values pass through unchanged. -/
def clampRetryCount (n : Int) : Nat :=
  if n < 0 then 1 else n.toNat

/-- Model of the retry delay computed at main.rs lines 213 to 215:
min(MINIMUM_RETRY_DELAY * retry_count, MAXIMUM_RETRY_DELAY), where
retry_count is clampRetryCount of the i16 column value. -/
def retry_in (retry_count : Int) : Nat :=
  min (MINIMUM_RETRY_DELAY * clampRetryCount retry_count) MAXIMUM_RETRY_DELAY

/-- The backoff formula as the specification states it:
backoff(n) = min(MINIMUM_RETRY_DELAY * max(n, 1), MAXIMUM_RETRY_DELAY). -/
def backoff_spec (n : Nat) : Nat :=
  min (MINIMUM_RETRY_DELAY * max n 1) MAXIMUM_RETRY_DELAY

/-! ## Worker data model (output-worker/src/main.rs) -/

/-- One row of webhook.request_attempt, with the columns the worker reads
and writes.  UUID columns are modelled as Nat, timestamps as Nat seconds. -/
structure Attempt where
  id : Nat
  event_id : Nat
  subscription_id : Nat
  created_at : Nat
  retry_count : Int
  delay_until : Option Nat
  picked_at : Option Nat
  worker_id : Option String
  worker_version : Option String
  succeeded_at : Option Nat
  failed_at : Option Nat
  response_id : Option Nat
deriving DecidableEq, Repr

/-- One row of webhook.response, as inserted by the worker. -/
structure ResponseRow where
  id : Nat
  response_error_name : Option String
  http_code : Option Nat
  elapsed_time_ms : Nat
deriving DecidableEq, Repr

/-- The verdict of the HTTP client adapter about one outbound call, as the
worker observes it: the is_success flag that drives the branch at main.rs
line 185, plus the fields recorded into webhook.response. -/
structure WorkResult where
  is_success : Bool
  response_error_name : Option String
  http_code : Option Nat
  elapsed_time_ms : Nat
deriving DecidableEq, Repr

/-- The store as the worker sees it: attempt rows, response rows, the set of
row locks currently held by open transactions (attempt id paired with the
worker holding the lock), and fresh-id counters for the two tables. -/
structure DB where
  attempts : List Attempt
  responses : List ResponseRow
  locks : List (Nat × String)
  nextResponseId : Nat
  nextAttemptId : Nat
deriving DecidableEq, Repr

/-- The WHERE clause of the claim query (main.rs line 118):
succeeded_at IS NULL AND failed_at IS NULL AND
(delay_until IS NULL OR delay_until <= statement_timestamp()). -/
def eligible (now : Nat) (a : Attempt) : Bool :=
  a.succeeded_at.isNone && a.failed_at.isNone &&
    (match a.delay_until with
     | none => true
     | some d => decide (d ≤ now))

/-- The per-row invariant the worker maintains (spec section 3 and property
1 of section 8): at most one of succeeded_at and failed_at is set, and a row
with a terminal timestamp also has picked_at set. -/
def attemptInvariant (a : Attempt) : Prop :=
  ¬(a.succeeded_at.isSome = true ∧ a.failed_at.isSome = true) ∧
    ((a.succeeded_at.isSome = true ∨ a.failed_at.isSome = true) →
      a.picked_at.isSome = true)

/-- The per-row invariant is decidable, so that it can be evaluated on
concrete rows. -/
instance (a : Attempt) : Decidable (attemptInvariant a) := by
  unfold attemptInvariant
  infer_instance

/-- Which worker, if any, holds a row lock on the attempt with this id. -/
def lockedBy (db : DB) (aid : Nat) : Option String :=
  (db.locks.find? (fun p => p.1 == aid)).map Prod.snd

/-- Whether some open transaction holds a row lock on this attempt. -/
def isLocked (db : DB) (aid : Nat) : Bool :=
  (lockedBy db aid).isSome

/-- ORDER BY created_at ASC LIMIT 1: the row with the least created_at
among the given rows (first such row on ties), if any. -/
def selectOldest : List Attempt → Option Attempt
  | [] => none
  | a :: rest =>
    match selectOldest rest with
    | none => some a
    | some b => if a.created_at ≤ b.created_at then some a else some b

/-- The SELECT of main.rs lines 112 to 125: among attempt rows that satisfy
the eligibility predicate and are not locked by another transaction
(SKIP LOCKED), the one with the least created_at, or none.  The INNER JOINs
of the query only fetch target and payload columns; foreign keys make them
total, so they are not modelled as filters. -/
def claimQuery (db : DB) (now : Nat) : Option Attempt :=
  selectOldest (db.attempts.filter (fun a => eligible now a && !(isLocked db a.id)))

/-- The claim step of one worker iteration: run claimQuery and, when a row
comes back, record the FOR UPDATE row lock as held by this worker until its
transaction commits. -/
def claimAttempt (db : DB) (wid : String) (now : Nat) : Option Attempt × DB :=
  match claimQuery db now with
  | none => (none, db)
  | some a => (some a, { db with locks := (a.id, wid) :: db.locks })

/-- An UPDATE of webhook.request_attempt touching the rows whose id matches. -/
def updateAttempt (db : DB) (aid : Nat) (f : Attempt → Attempt) : DB :=
  { db with attempts := db.attempts.map (fun a => if a.id = aid then f a else a) }

/-- Steps 4 to 8 of one worker iteration on a claimed attempt
(main.rs lines 127 to 239): set picked_at, worker_id and worker_version;
insert the response row and take its fresh id; point the attempt at the
response; then either set succeeded_at (success) or set failed_at and
insert the successor attempt with retry_count + 1 and
delay_until = statement_timestamp() + retry_in(old retry_count). -/
def processAttempt (db : DB) (a : Attempt) (wid wver : String) (w : WorkResult)
    (now : Nat) : DB :=
  let db1 := updateAttempt db a.id (fun r =>
    { r with picked_at := some now, worker_id := some wid, worker_version := some wver })
  let rid := db1.nextResponseId
  let db2 : DB := { db1 with
    responses := db1.responses ++
      [{ id := rid, response_error_name := w.response_error_name,
         http_code := w.http_code, elapsed_time_ms := w.elapsed_time_ms }],
    nextResponseId := rid + 1 }
  let db3 := updateAttempt db2 a.id (fun r => { r with response_id := some rid })
  if w.is_success then
    updateAttempt db3 a.id (fun r => { r with succeeded_at := some now })
  else
    let db4 := updateAttempt db3 a.id (fun r => { r with failed_at := some now })
    let succ : Attempt :=
      { id := db4.nextAttemptId
        event_id := a.event_id
        subscription_id := a.subscription_id
        created_at := now
        retry_count := a.retry_count + 1
        delay_until := some (now + retry_in a.retry_count)
        picked_at := none
        worker_id := none
        worker_version := none
        succeeded_at := none
        failed_at := none
        response_id := none }
    { db4 with attempts := db4.attempts ++ [succ], nextAttemptId := db4.nextAttemptId + 1 }

/-- Committing the transaction of a worker releases every row lock it holds. -/
def commitTx (db : DB) (wid : String) : DB :=
  { db with locks := db.locks.filter (fun p => p.2 ≠ wid) }

/-- One full iteration of the worker loop (main.rs lines 109 to 247): begin a
transaction, claim an attempt, process it when one was found, commit.  The
adapter verdict w stands for the outcome of the outbound HTTP call. -/
def workerIteration (db : DB) (wid wver : String) (w : WorkResult) (now : Nat) : DB :=
  match claimAttempt db wid now with
  | (none, db1) => commitTx db1 wid
  | (some a, db1) => commitTx (processAttempt db1 a wid wver w now) wid

/-! ## JSON values and the ingest error type (api/src/handlers/events.rs) -/

/-- JSON values, as far as the ingest handler inspects them: the handler only
asks whether a value is an object (serde_json Value::is_object). -/
inductive Json where
  | null
  | bool (b : Bool)
  | num (n : Int)
  | str (s : String)
  | arr (elems : List Json)
  | obj (fields : List (String × Json))

/-- Whether a JSON value is an object. -/
def Json.is_object : Json → Bool
  | .obj _ => true
  | _ => false

/-- Modelled from the spec: the Hook0Problem error enum lives in problems.rs,
which is not under src/; only the variants the events handler uses are
modelled, together with the spec error table for store failures (Unknown
secret maps to Forbidden, store failure maps to InternalServerError). -/
inductive Hook0Problem where
  | Forbidden
  | NotFound
  | InternalServerError
  | EventInvalidPayloadContentType
  | EventInvalidBase64Payload
  | EventInvalidMetadata
  | EventInvalidLabels
deriving DecidableEq, Repr

/-! ## Base64 (the base64 crate, standard alphabet with padding, as used by
base64::decode and base64::encode in events.rs) -/

/-- The standard base64 alphabet: sextet index to character. -/
def b64Char (n : Nat) : Char :=
  if n < 26 then Char.ofNat (65 + n)
  else if n < 52 then Char.ofNat (97 + (n - 26))
  else if n < 62 then Char.ofNat (48 + (n - 52))
  else if n = 62 then '+'
  else '/'

/-- Inverse alphabet lookup: character to sextet index, none for characters
outside the standard alphabet (including the padding character). -/
def b64Index (c : Char) : Option Nat :=
  if 'A' ≤ c ∧ c ≤ 'Z' then some (c.toNat - 65)
  else if 'a' ≤ c ∧ c ≤ 'z' then some (c.toNat - 97 + 26)
  else if '0' ≤ c ∧ c ≤ '9' then some (c.toNat - 48 + 52)
  else if c = '+' then some 62
  else if c = '/' then some 63
  else none

/-- Base64 encoding of a byte list (bytes as Nat below 256): three bytes
become four alphabet characters; a final group of one or two bytes is padded
with two or one padding characters. -/
def b64Encode : List Nat → List Char
  | [] => []
  | [b0] => [b64Char (b0 / 4), b64Char (b0 % 4 * 16), '=', '=']
  | [b0, b1] =>
      [b64Char (b0 / 4), b64Char (b0 % 4 * 16 + b1 / 16), b64Char (b1 % 16 * 4), '=']
  | b0 :: b1 :: b2 :: rest =>
      b64Char (b0 / 4) :: b64Char (b0 % 4 * 16 + b1 / 16) ::
        b64Char (b1 % 16 * 4 + b2 / 64) :: b64Char (b2 % 64) :: b64Encode rest

/-- Base64 decoding with the standard configuration: input length must be a
multiple of four, padding may only close the final quad, and bits beyond the
encoded bytes must be zero (decode_allow_trailing_bits is false). -/
def b64Decode : List Char → Option (List Nat)
  | [] => some []
  | c0 :: c1 :: c2 :: c3 :: rest =>
    match b64Index c0, b64Index c1 with
    | some s0, some s1 =>
      if c2 = '=' then
        if c3 = '=' ∧ rest = [] ∧ s1 % 16 = 0 then some [s0 * 4 + s1 / 16] else none
      else
        match b64Index c2 with
        | some s2 =>
          if c3 = '=' then
            if rest = [] ∧ s2 % 4 = 0 then
              some [s0 * 4 + s1 / 16, s1 % 16 * 16 + s2 / 4]
            else none
          else
            match b64Index c3, b64Decode rest with
            | some s3, some tail =>
                some ((s0 * 4 + s1 / 16) :: (s1 % 16 * 16 + s2 / 4) ::
                  (s2 % 4 * 64 + s3) :: tail)
            | _, _ => none
        | none => none
    | _, _ => none
  | _ => none

/-- base64::decode applied to the payload string of the request body. -/
def base64_decode (s : String) : Option (List Nat) :=
  b64Decode s.data

/-- base64::encode applied to the stored payload bytes. -/
def base64_encode (p : List Nat) : String :=
  ⟨b64Encode p⟩

/-! ## Originating IP extraction (events.rs lines 287 to 297) -/

/-- Model of the Rust iterator expression str.split(sep).next(): split always
yields at least one chunk, and the first chunk is the longest sep-free
initial segment of the string. -/
def firstChunk (sep : Char) (l : List Char) : List Char :=
  l.takeWhile (fun c => c ≠ sep)

/-- A dotted-quad octet: one to three decimal digits valued at most 255. -/
def parseOctet (cs : List Char) : Option Nat :=
  if cs ≠ [] ∧ cs.all Char.isDigit then
    let n := cs.foldl (fun acc c => acc * 10 + (c.toNat - 48)) 0
    if n ≤ 255 then some n else none
  else none

/-- Splitting a character list on a separator, Rust str::split style: the
result always has one more chunk than there are separators. -/
def splitOnChar (sep : Char) : List Char → List (List Char)
  | [] => [[]]
  | c :: rest =>
    if c = sep then [] :: splitOnChar sep rest
    else
      match splitOnChar sep rest with
      | chunk :: chunks => (c :: chunk) :: chunks
      | [] => [[c]]

/-- An IPv4 network value, the shape IpNetwork takes on every string that can
reach it from ingest (see ipnetwork_from_str). -/
structure IpNetwork where
  o1 : Nat
  o2 : Nat
  o3 : Nat
  o4 : Nat
deriving DecidableEq, Repr

/-- Model of IpNetwork::from_str restricted to the strings reachable from
ingest: the argument is the chunk of the peer address before the first
colon, so it never contains a colon, and a colon-free string can only parse
as an IPv4 network, since every textual IPv6 address contains a colon.
Accepts a dotted quad of four octets; the optional CIDR suffix never occurs
in peer addresses and is omitted. -/
def ipnetwork_from_str (cs : List Char) : Option IpNetwork :=
  match (splitOnChar '.' cs).map parseOctet with
  | [some a, some b, some c, some d] => some ⟨a, b, c, d⟩
  | _ => none

/-- The IP extraction block of ingest (events.rs lines 287 to 297):
realip_remote_addr() yields the peer address when one is known; the handler
keeps only the text before the first colon and parses it with
IpNetwork::from_str; a missing address or a failed parse becomes
Hook0Problem::InternalServerError. -/
def extract_ip (realip : Option String) : Except Hook0Problem IpNetwork :=
  match realip with
  | none => .error .InternalServerError
  | some s =>
    match ipnetwork_from_str (firstChunk ':' s.data) with
    | some ip => .ok ip
    | none => .error .InternalServerError

/-! ## Ingest data model (api/src/handlers/events.rs) -/

/-- One row of event.application_secret, as selected by ingest. -/
structure ApplicationSecret where
  application_id : Nat
  token : Nat
  name : String
  deleted_at : Option Nat
deriving DecidableEq, Repr

/-- One row of event.event, with the columns ingest writes and the get
handler reads back (the EventWithPayloadRaw selection). -/
structure EventRow where
  application_id : Nat
  event_id : Nat
  event_type_name : String
  payload : List Nat
  payload_content_type_name : String
  ip : IpNetwork
  metadata : Option Json
  occurred_at : Nat
  received_at : Nat
  application_secret_token : Nat
  labels : Json

/-- The request body of POST /events (struct EventPost). -/
structure EventPost where
  application_id : Nat
  event_id : Nat
  event_type : String
  payload : String
  payload_content_type : String
  metadata : Option Json
  occurred_at : Nat
  application_secret : Nat
  labels : Json

/-- The relational store as the ingest path sees it. -/
structure Store where
  application_secrets : List ApplicationSecret
  payload_content_types : List String
  events : List EventRow

/-- The 201 response body of ingest (struct IngestedEvent). -/
structure IngestedEvent where
  application_id : Nat
  event_id : Nat
  received_at : Nat
deriving DecidableEq, Repr

/-- The secret lookup of ingest (events.rs lines 246 to 258): the secret row
with the asserted application id and token whose deleted_at is null. -/
def findSecret (store : Store) (body : EventPost) : Option ApplicationSecret :=
  store.application_secrets.find? (fun s =>
    s.application_id == body.application_id && s.token == body.application_secret &&
      s.deleted_at.isNone)

/-- The content type check of ingest (events.rs lines 260 to 273): the count
of registered content types with the supplied name must be exactly one. -/
def content_type_ok (store : Store) (body : EventPost) : Bool :=
  store.payload_content_types.countP (fun n => n == body.payload_content_type) == 1

/-- The metadata check of ingest (events.rs lines 277 to 281): absent, or a
JSON object. -/
def metadata_ok (body : EventPost) : Bool :=
  match body.metadata with
  | some v => v.is_object
  | none => true

/-- The labels check of ingest (events.rs line 283): a JSON object. -/
def labels_ok (body : EventPost) : Bool :=
  body.labels.is_object

/-- One call of the ingest handler (events.rs lines 239 to 329).  The
transaction opened on line 244 carries only reads: the secret lookup and the
content type count run on the transaction, while the event INSERT on line
316 is executed with fetch_one on the connection pool (state.db), so the new
row autocommits immediately and is not part of the transaction.  The
parameter insertOk models whether the INSERT statement itself succeeds at
the store, and commitOk models whether the final tx.commit() succeeds;
either store failure surfaces as InternalServerError via Hook0Problem::from.
The result is the store after the call, paired with the response. -/
def ingest (store : Store) (body : EventPost) (realip : Option String) (now : Nat)
    (insertOk commitOk : Bool) : Store × Except Hook0Problem IngestedEvent :=
  match findSecret store body with
  | none => (store, .error .Forbidden)
  | some secret =>
    match content_type_ok store body, base64_decode body.payload,
        metadata_ok body, labels_ok body with
    | true, some p, true, true =>
      match extract_ip realip with
      | .error e => (store, .error e)
      | .ok ip =>
        if insertOk then
          let row : EventRow :=
            { application_id := body.application_id
              event_id := body.event_id
              event_type_name := body.event_type
              payload := p
              payload_content_type_name := body.payload_content_type
              ip := ip
              metadata := body.metadata
              occurred_at := body.occurred_at
              received_at := now
              application_secret_token := secret.token
              labels := body.labels }
          let store1 : Store := { store with events := store.events ++ [row] }
          if commitOk then
            (store1, .ok { application_id := body.application_id,
                           event_id := body.event_id, received_at := now })
          else (store1, .error .InternalServerError)
        else (store, .error .InternalServerError)
    | false, _, _, _ => (store, .error .EventInvalidPayloadContentType)
    | _, none, _, _ => (store, .error .EventInvalidBase64Payload)
    | _, _, false, _ => (store, .error .EventInvalidMetadata)
    | _, _, _, false => (store, .error .EventInvalidLabels)

/-! ## Reading an event back (events.rs get handler and
EventWithPayloadRaw::to_event, lines 115 to 204) -/

/-- The response body of the get handler (struct EventWithPayload), with the
payload re-encoded as base64 text. -/
structure EventWithPayload where
  event_id : Nat
  event_type_name : String
  payload : String
  payload_content_type_name : String
  metadata : Option Json
  occurred_at : Nat
  received_at : Nat
  application_secret_token : Nat
  labels : Json

/-- EventWithPayloadRaw::to_event (events.rs lines 130 to 145): the stored
payload bytes are base64 encoded into the payload string of the response. -/
def EventRow.to_event (re : EventRow) : EventWithPayload :=
  { event_id := re.event_id
    event_type_name := re.event_type_name
    payload := base64_encode re.payload
    payload_content_type_name := re.payload_content_type_name
    metadata := re.metadata
    occurred_at := re.occurred_at
    received_at := re.received_at
    application_secret_token := re.application_secret_token
    labels := re.labels }

/-- The get handler (events.rs lines 169 to 204): select the event row by
application id and event id, and return its to_event view, or NotFound. -/
def getEvent (store : Store) (application_id event_id : Nat) :
    Except Hook0Problem EventWithPayload :=
  match store.events.find? (fun e =>
      e.application_id == application_id && e.event_id == event_id) with
  | some re => .ok re.to_event
  | none => .error .NotFound

/-! ## Concrete sample data used to evaluate the definitions -/

/-- A fresh, immediately eligible attempt with retry_count 0. -/
def att1 : Attempt :=
  { id := 1, event_id := 10, subscription_id := 20, created_at := 3,
    retry_count := 0, delay_until := none, picked_at := none, worker_id := none,
    worker_version := none, succeeded_at := none, failed_at := none,
    response_id := none }

/-- A second eligible attempt, created later than att1. -/
def att2 : Attempt :=
  { att1 with id := 2, created_at := 7 }

/-- A store with two eligible attempts and no held locks. -/
def exDB : DB :=
  { attempts := [att1, att2], responses := [], locks := [],
    nextResponseId := 100, nextAttemptId := 50 }

/-- A store with a single eligible attempt. -/
def exDB1 : DB :=
  { attempts := [att1], responses := [], locks := [],
    nextResponseId := 100, nextAttemptId := 50 }

/-- Adapter verdict for a 200 response. -/
def wSuccess : WorkResult :=
  { is_success := true, response_error_name := none, http_code := some 200,
    elapsed_time_ms := 12 }

/-- Adapter verdict for a 500 response. -/
def wFailure : WorkResult :=
  { is_success := false, response_error_name := none, http_code := some 500,
    elapsed_time_ms := 12 }

/-- The attempt att1 after a failing worker iteration at time 100. -/
def att1_failed : Attempt :=
  { att1 with
    picked_at := some 100,
    worker_id := some "w1",
    worker_version := some "1.0",
    response_id := some 100,
    failed_at := some 100 }

/-- The successor attempt that the failing iteration at time 100 inserts for
att1: note the zero retry delay, delay_until = 100 + 5 * 0 = 100. -/
def att1_retry : Attempt :=
  { id := 50, event_id := 10, subscription_id := 20, created_at := 100,
    retry_count := 1, delay_until := some 100, picked_at := none,
    worker_id := none, worker_version := none, succeeded_at := none,
    failed_at := none, response_id := none }

/-- An active application secret. -/
def exSecret : ApplicationSecret :=
  { application_id := 1, token := 99, name := "main", deleted_at := none }

/-- A well-formed ingest body whose payload is base64("hi"). -/
def exBody : EventPost :=
  { application_id := 1, event_id := 5, event_type := "order.created",
    payload := base64_encode [104, 105], payload_content_type := "text/plain",
    metadata := none, occurred_at := 40, application_secret := 99,
    labels := .obj [("k", .str "v")] }

/-- A store holding the secret and the registered content type of exBody. -/
def exStore : Store :=
  { application_secrets := [exSecret], payload_content_types := ["text/plain"],
    events := [] }

/-- A body failing three validations at once: unregistered content type,
undecodable payload, and array labels. -/
def exBodyBad : EventPost :=
  { exBody with
    payload := "!!!not-base64",
    payload_content_type := "application/unobtanium",
    labels := .arr [.str "a"] }

/-- The event row that ingesting exBody from peer 1.2.3.4 at time 42
produces: payload bytes 104, 105 are the base64 decoding of "aGk=". -/
def exRow : EventRow :=
  { application_id := 1, event_id := 5, event_type_name := "order.created",
    payload := [104, 105], payload_content_type_name := "text/plain",
    ip := ⟨1, 2, 3, 4⟩, metadata := none, occurred_at := 40, received_at := 42,
    application_secret_token := 99, labels := .obj [("k", .str "v")] }

/-! ## Theorems: base64 -/

/-- The inverse alphabet lookup inverts the alphabet map on every sextet. -/
theorem b64Index_b64Char : ∀ n, n < 64 → b64Index (b64Char n) = some n := by
  decide

/-- No alphabet character is the padding character. -/
theorem b64Char_ne_pad : ∀ n, n < 64 → b64Char n ≠ '=' := by
  decide

/-- Decoding inverts encoding on every byte list. -/
theorem b64Decode_b64Encode : ∀ (p : List Nat), (∀ b ∈ p, b < 256) →
    b64Decode (b64Encode p) = some p
  | [], _ => rfl
  | [b0], h => by
      have hb0 : b0 < 256 := h b0 (by simp)
      have h0 : b0 / 4 < 64 := by omega
      have h1 : b0 % 4 * 16 < 64 := by omega
      simp only [b64Encode, b64Decode, b64Index_b64Char _ h0, b64Index_b64Char _ h1]
      simp only [Nat.mul_mod_left, and_true, and_self, if_true, reduceIte]
      congr 1
      simp only [List.cons.injEq, and_true]
      omega
  | [b0, b1], h => by
      have hb0 : b0 < 256 := h b0 (by simp)
      have hb1 : b1 < 256 := h b1 (by simp)
      have h0 : b0 / 4 < 64 := by omega
      have h1 : b0 % 4 * 16 + b1 / 16 < 64 := by omega
      have h2 : b1 % 16 * 4 < 64 := by omega
      have hne : b64Char (b1 % 16 * 4) ≠ '=' := b64Char_ne_pad _ h2
      simp only [b64Encode, b64Decode, b64Index_b64Char _ h0, b64Index_b64Char _ h1,
        b64Index_b64Char _ h2, hne, if_false, reduceIte, Nat.mul_mod_left, and_true,
        and_self, if_true]
      congr 1
      simp only [List.cons.injEq, and_true]
      constructor
      · omega
      · omega
  | b0 :: b1 :: b2 :: rest, h => by
      have hb0 : b0 < 256 := h b0 (by simp)
      have hb1 : b1 < 256 := h b1 (by simp)
      have hb2 : b2 < 256 := h b2 (by simp)
      have ih := b64Decode_b64Encode rest (fun b hb => h b (by simp [hb]))
      have h0 : b0 / 4 < 64 := by omega
      have h1 : b0 % 4 * 16 + b1 / 16 < 64 := by omega
      have h2 : b1 % 16 * 4 + b2 / 64 < 64 := by omega
      have h3 : b2 % 64 < 64 := by omega
      have hne2 : b64Char (b1 % 16 * 4 + b2 / 64) ≠ '=' := b64Char_ne_pad _ h2
      have hne3 : b64Char (b2 % 64) ≠ '=' := b64Char_ne_pad _ h3
      simp only [b64Encode, b64Decode, b64Index_b64Char _ h0, b64Index_b64Char _ h1,
        b64Index_b64Char _ h2, b64Index_b64Char _ h3, hne2, hne3, if_false, reduceIte, ih]
      congr 1
      simp only [List.cons.injEq, and_true]
      refine ⟨by omega, by omega, by omega⟩

/-- String-level version: decoding the encoding of any byte list succeeds and
returns the bytes unchanged. -/
theorem base64_decode_base64_encode (p : List Nat) (h : ∀ b ∈ p, b < 256) :
    base64_decode (base64_encode p) = some p :=
  b64Decode_b64Encode p h

/-! ## Theorems: claims -/

/-- C1: the claim states the retry delay is
min(MINIMUM_RETRY_DELAY * max(n, 1), MAXIMUM_RETRY_DELAY), hence at least 5
seconds and equal to 5 seconds at n = 0, but the worker converts the i16
retry_count with u32::try_from(...).unwrap_or(1), which clamps only negative
values: at retry_count = 0 the computed delay is 5 * 0 = 0 seconds, outside
the claimed interval, while the claimed formula gives 5 seconds. -/
theorem retry_in_at_zero_diverges_from_backoff_spec :
    retry_in 0 = 0 ∧ backoff_spec 0 = 5 ∧ retry_in 0 ≠ backoff_spec 0 := by
  decide

/-! ## Theorems: the claim query -/

/-- selectOldest only returns elements of its input. -/
theorem selectOldest_mem : ∀ (l : List Attempt) (a : Attempt),
    selectOldest l = some a → a ∈ l
  | [], a, h => by simp [selectOldest] at h
  | b :: rest, a, h => by
      cases hr : selectOldest rest with
      | none =>
          simp only [selectOldest, hr, Option.some.injEq] at h
          simp [← h]
      | some c =>
          simp only [selectOldest, hr] at h
          by_cases hbc : b.created_at ≤ c.created_at
          · rw [if_pos hbc] at h
            simp only [Option.some.injEq] at h
            simp [← h]
          · rw [if_neg hbc] at h
            replace h := Option.some.inj h
            exact List.mem_cons_of_mem b (selectOldest_mem rest a (h ▸ hr))

/-- selectOldest of a nonempty list never comes back empty. -/
theorem selectOldest_none : ∀ (l : List Attempt), selectOldest l = none → l = []
  | [], _ => rfl
  | b :: rest, h => by
      cases hr : selectOldest rest with
      | none => simp [selectOldest, hr] at h
      | some c =>
          simp only [selectOldest, hr] at h
          split at h <;> simp at h

/-- selectOldest returns a row whose created_at is least in its input. -/
theorem selectOldest_le : ∀ (l : List Attempt) (a : Attempt),
    selectOldest l = some a → ∀ b ∈ l, a.created_at ≤ b.created_at
  | [], a, h => by simp [selectOldest] at h
  | b :: rest, a, h => by
      intro x hx
      cases hr : selectOldest rest with
      | none =>
          have hrest : rest = [] := selectOldest_none rest hr
          subst hrest
          simp only [selectOldest, Option.some.injEq] at h
          subst h
          rcases List.mem_cons.mp hx with rfl | hxr
          · exact le_refl _
          · exact absurd hxr (List.not_mem_nil x)
      | some c =>
          have hcle := selectOldest_le rest c hr
          simp only [selectOldest, hr] at h
          by_cases hbc : b.created_at ≤ c.created_at
          · rw [if_pos hbc] at h
            replace h := Option.some.inj h
            subst h
            rcases List.mem_cons.mp hx with rfl | hxr
            · exact le_refl _
            · exact le_trans hbc (hcle x hxr)
          · rw [if_neg hbc] at h
            replace h := Option.some.inj h
            subst h
            rcases List.mem_cons.mp hx with rfl | hxr
            · omega
            · exact hcle x hxr

/-- Unfolding a successful claim: the query returned the row and the only
change to the store is the freshly taken row lock. -/
theorem claimAttempt_some (db : DB) (wid : String) (now : Nat) (a : Attempt)
    (db1 : DB) (h : claimAttempt db wid now = (some a, db1)) :
    claimQuery db now = some a ∧
      db1 = { db with locks := (a.id, wid) :: db.locks } := by
  unfold claimAttempt at h
  cases hq : claimQuery db now with
  | none => rw [hq] at h; simp at h
  | some c =>
      rw [hq] at h
      simp only [Prod.mk.injEq, Option.some.injEq] at h
      obtain ⟨h1, h2⟩ := h
      subst h1
      exact ⟨rfl, h2.symm⟩

/-- Unfolding an empty claim: nothing was found and the store is unchanged. -/
theorem claimAttempt_none (db : DB) (wid : String) (now : Nat) (db1 : DB)
    (h : claimAttempt db wid now = (none, db1)) : db1 = db := by
  unfold claimAttempt at h
  cases hq : claimQuery db now with
  | none =>
      rw [hq] at h
      simp only [Prod.mk.injEq] at h
      exact h.2.symm
  | some c =>
      rw [hq] at h
      simp at h

/-- C4: the claim query returns at most one row (it is an Option), and when
it returns one, that row is an attempt of the store satisfying the
eligibility predicate (no terminal timestamp, delay_until null or due), it
is not locked by any other transaction (SKIP LOCKED), its created_at is
least among all eligible unlocked attempts (ORDER BY created_at ASC LIMIT 1),
and the claiming step leaves the row locked for the claiming worker
(FOR UPDATE). -/
theorem claim_selects_single_oldest_eligible (db : DB) (wid : String) (now : Nat)
    (a : Attempt) (db1 : DB) (h : claimAttempt db wid now = (some a, db1)) :
    a ∈ db.attempts ∧
    eligible now a = true ∧
    isLocked db a.id = false ∧
    (∀ b ∈ db.attempts, eligible now b = true → isLocked db b.id = false →
        a.created_at ≤ b.created_at) ∧
    lockedBy db1 a.id = some wid := by
  obtain ⟨hq, hdb1⟩ := claimAttempt_some db wid now a db1 h
  have hmem := selectOldest_mem _ _ hq
  have hmin := selectOldest_le _ _ hq
  rw [List.mem_filter] at hmem
  obtain ⟨hmem, hcond⟩ := hmem
  simp only [Bool.and_eq_true, Bool.not_eq_true'] at hcond
  refine ⟨hmem, hcond.1, hcond.2, ?_, ?_⟩
  · intro b hb he hl
    exact hmin b (List.mem_filter.mpr ⟨hb, by simp [he, hl]⟩)
  · subst hdb1
    simp [lockedBy]

/-- Witness for C4 at a concrete store: among the two eligible attempts of
exDB, the claim returns att1 (created_at 3, older than att2 at 7) and locks
it for the claiming worker. -/
theorem claim_selects_single_oldest_eligible_witness :
    att1 ∈ exDB.attempts ∧
    eligible 10 att1 = true ∧
    isLocked exDB att1.id = false ∧
    (∀ b ∈ exDB.attempts, eligible 10 b = true → isLocked exDB b.id = false →
        att1.created_at ≤ b.created_at) ∧
    lockedBy { exDB with locks := [(att1.id, "w1")] } att1.id = some "w1" :=
  claim_selects_single_oldest_eligible exDB "w1" 10 att1
    { exDB with locks := [(att1.id, "w1")] } (by decide)

/-- C9: after one worker claims an attempt and before its transaction
commits, the FOR UPDATE row lock is still held, and the SKIP LOCKED filter
of the claim query makes it impossible for any other claim against the
resulting store to return the same attempt; since picked_at is only written
on the claimed row, at most one successful picked_at update per attempt is
observable across concurrent workers. -/
theorem no_double_claim (db : DB) (w1 w2 : String) (now1 now2 : Nat)
    (a : Attempt) (db1 : DB) (h1 : claimAttempt db w1 now1 = (some a, db1)) :
    ∀ b db2, claimAttempt db1 w2 now2 = (some b, db2) → b.id ≠ a.id := by
  intro b db2 h2 hid
  obtain ⟨hq1, hdb1⟩ := claimAttempt_some db w1 now1 a db1 h1
  obtain ⟨hq2, -⟩ := claimAttempt_some db1 w2 now2 b db2 h2
  have hmem := selectOldest_mem _ _ hq2
  rw [List.mem_filter] at hmem
  obtain ⟨-, hcond⟩ := hmem
  simp only [Bool.and_eq_true, Bool.not_eq_true'] at hcond
  obtain ⟨-, hlock⟩ := hcond
  subst hdb1
  rw [hid] at hlock
  simp [isLocked, lockedBy] at hlock

/-- Witness for C9 at a concrete store: worker w1 claims att1 out of exDB;
a second claim, run by w2 while the first transaction is still open, skips
the locked att1 and returns att2, a different attempt. -/
theorem no_double_claim_witness : att2.id ≠ att1.id :=
  no_double_claim exDB "w1" "w2" 10 11 att1
    { exDB with locks := [(att1.id, "w1")] } (by decide) att2
    { exDB with locks := [(att2.id, "w2"), (att1.id, "w1")] } (by decide)

/-! ## Theorems: processing a claimed attempt -/

/-- Composing two per-row updates keyed on the same id, when the first
update preserves the id. -/
theorem map_update_update (l : List Attempt) (aid : Nat) (f g : Attempt → Attempt)
    (hf : ∀ r, (f r).id = r.id) :
    (l.map (fun r => if r.id = aid then f r else r)).map
        (fun r => if r.id = aid then g r else r) =
      l.map (fun r => if r.id = aid then g (f r) else r) := by
  rw [List.map_map]
  apply List.map_congr_left
  intro r _
  by_cases hid : r.id = aid
  · simp [Function.comp, hid, hf r]
  · simp [Function.comp, hid]

/-- The attempt rows after processing a claimed attempt with a success
verdict: exactly the rows with the claimed id are rewritten, and no row is
added. -/
theorem processAttempt_attempts_success (db : DB) (a : Attempt) (wid wver : String)
    (w : WorkResult) (now : Nat) (hs : w.is_success = true) :
    (processAttempt db a wid wver w now).attempts =
      db.attempts.map (fun r =>
        if r.id = a.id then
          { r with
            picked_at := some now,
            worker_id := some wid,
            worker_version := some wver,
            response_id := some db.nextResponseId,
            succeeded_at := some now }
        else r) := by
  simp only [processAttempt, updateAttempt, hs, if_true]
  have h1 := map_update_update db.attempts a.id
    (fun r => { r with picked_at := some now, worker_id := some wid,
                       worker_version := some wver })
    (fun r => { r with response_id := some db.nextResponseId })
    (fun r => rfl)
  have h2 := map_update_update db.attempts a.id
    (fun r => { r with picked_at := some now, worker_id := some wid,
                       worker_version := some wver,
                       response_id := some db.nextResponseId })
    (fun r => { r with succeeded_at := some now })
    (fun r => rfl)
  simp only [h1, h2]

/-- The attempt rows after processing a claimed attempt with a failure
verdict: the rows with the claimed id get failed_at, and exactly one
successor row is appended, carrying the event and subscription over,
incrementing retry_count, and delayed by retry_in of the old retry_count. -/
theorem processAttempt_attempts_failure (db : DB) (a : Attempt) (wid wver : String)
    (w : WorkResult) (now : Nat) (hs : w.is_success = false) :
    (processAttempt db a wid wver w now).attempts =
      db.attempts.map (fun r =>
        if r.id = a.id then
          { r with
            picked_at := some now,
            worker_id := some wid,
            worker_version := some wver,
            response_id := some db.nextResponseId,
            failed_at := some now }
        else r) ++
      [{ id := db.nextAttemptId,
         event_id := a.event_id,
         subscription_id := a.subscription_id,
         created_at := now,
         retry_count := a.retry_count + 1,
         delay_until := some (now + retry_in a.retry_count),
         picked_at := none,
         worker_id := none,
         worker_version := none,
         succeeded_at := none,
         failed_at := none,
         response_id := none }] := by
  simp only [processAttempt, updateAttempt, hs, Bool.false_eq_true, if_false]
  have h1 := map_update_update db.attempts a.id
    (fun r => { r with picked_at := some now, worker_id := some wid,
                       worker_version := some wver })
    (fun r => { r with response_id := some db.nextResponseId })
    (fun r => rfl)
  have h2 := map_update_update db.attempts a.id
    (fun r => { r with picked_at := some now, worker_id := some wid,
                       worker_version := some wver,
                       response_id := some db.nextResponseId })
    (fun r => { r with failed_at := some now })
    (fun r => rfl)
  simp only [h1, h2]

/-- Processing a claimed attempt records exactly one response row, with the
fresh response id and the fields of the adapter verdict. -/
theorem processAttempt_responses (db : DB) (a : Attempt) (wid wver : String)
    (w : WorkResult) (now : Nat) :
    (processAttempt db a wid wver w now).responses =
      db.responses ++
        [{ id := db.nextResponseId,
           response_error_name := w.response_error_name,
           http_code := w.http_code,
           elapsed_time_ms := w.elapsed_time_ms }] := by
  cases hw : w.is_success <;>
    simp [processAttempt, updateAttempt, hw]

/-- An eligible row has no terminal timestamp. -/
theorem eligible_no_terminal (now : Nat) (a : Attempt) (h : eligible now a = true) :
    a.succeeded_at = none ∧ a.failed_at = none := by
  simp only [eligible, Bool.and_eq_true, Option.isNone_iff_eq_none] at h
  exact ⟨h.1.1, h.1.2⟩

/-- C6: when the adapter reports success for a claimed attempt, the worker
iteration rewrites exactly the claimed row, setting picked_at, the worker
identity, the response_id of the freshly inserted response row, and
succeeded_at; it inserts that one response row; it creates no successor
attempt (the attempt list keeps its length, row for row); and the updated
row is terminal, never again eligible. -/
theorem worker_success_terminal (db : DB) (wid wver : String) (w : WorkResult)
    (now : Nat) (a : Attempt) (db1 : DB)
    (hclaim : claimAttempt db wid now = (some a, db1))
    (hs : w.is_success = true) :
    (workerIteration db wid wver w now).attempts =
      db.attempts.map (fun r =>
        if r.id = a.id then
          { r with
            picked_at := some now,
            worker_id := some wid,
            worker_version := some wver,
            response_id := some db.nextResponseId,
            succeeded_at := some now }
        else r) ∧
    (workerIteration db wid wver w now).responses =
      db.responses ++
        [{ id := db.nextResponseId,
           response_error_name := w.response_error_name,
           http_code := w.http_code,
           elapsed_time_ms := w.elapsed_time_ms }] ∧
    (∀ b ∈ (workerIteration db wid wver w now).attempts, b.id = a.id →
      ∀ t, eligible t b = false) := by
  obtain ⟨hq, hdb1⟩ := claimAttempt_some db wid now a db1 hclaim
  subst hdb1
  unfold workerIteration
  rw [hclaim]
  have ha := processAttempt_attempts_success
    { db with locks := (a.id, wid) :: db.locks } a wid wver w now hs
  have hr := processAttempt_responses
    { db with locks := (a.id, wid) :: db.locks } a wid wver w now
  simp only [commitTx] at *
  refine ⟨ha, hr, ?_⟩
  intro b hb hbid t
  rw [ha] at hb
  simp only [List.mem_map] at hb
  obtain ⟨r, hrm, hrb⟩ := hb
  by_cases hid : r.id = a.id
  · rw [if_pos hid] at hrb
    subst hrb
    simp [eligible]
  · rw [if_neg hid] at hrb
    subst hrb
    exact absurd hbid hid

/-- Witness for C6 at a concrete store: a successful iteration on exDB1
rewrites att1 in place, records one response row, and leaves the updated
row permanently ineligible. -/
theorem worker_success_terminal_witness :
    (workerIteration exDB1 "w1" "1.0" wSuccess 100).attempts =
      exDB1.attempts.map (fun r =>
        if r.id = att1.id then
          { r with
            picked_at := some 100,
            worker_id := some "w1",
            worker_version := some "1.0",
            response_id := some exDB1.nextResponseId,
            succeeded_at := some 100 }
        else r) ∧
    (workerIteration exDB1 "w1" "1.0" wSuccess 100).responses =
      exDB1.responses ++
        [{ id := exDB1.nextResponseId,
           response_error_name := wSuccess.response_error_name,
           http_code := wSuccess.http_code,
           elapsed_time_ms := wSuccess.elapsed_time_ms }] ∧
    (∀ b ∈ (workerIteration exDB1 "w1" "1.0" wSuccess 100).attempts,
      b.id = att1.id → ∀ t, eligible t b = false) :=
  worker_success_terminal exDB1 "w1" "1.0" wSuccess 100 att1
    { exDB1 with locks := [(att1.id, "w1")] } (by decide) rfl

/-- C7: one worker iteration preserves the per-row invariant that at most
one of succeeded_at and failed_at is set and that a terminal row was
picked: the worker only sets a terminal timestamp on the row it claimed
(which the claim query guarantees had both terminal fields null), it sets
picked_at on that row first, it sets exactly one of the two timestamps, and
the successor row it may insert starts with all of these fields null.
Attempt ids are assumed unique, as the store primary key guarantees. -/
theorem worker_iteration_preserves_invariant (db : DB) (wid wver : String)
    (w : WorkResult) (now : Nat)
    (hnodup : (db.attempts.map Attempt.id).Nodup)
    (hinv : ∀ a ∈ db.attempts, attemptInvariant a) :
    ∀ b ∈ (workerIteration db wid wver w now).attempts, attemptInvariant b := by
  intro b hb
  rcases hc : claimAttempt db wid now with ⟨o, db1⟩
  cases o with
  | none =>
      have hdb1 : db1 = db := claimAttempt_none db wid now db1 hc
      unfold workerIteration at hb
      rw [hc] at hb
      subst hdb1
      simp only [commitTx] at hb
      exact hinv b hb
  | some a =>
      obtain ⟨hq, hdb1⟩ := claimAttempt_some db wid now a db1 hc
      have hmem := selectOldest_mem _ _ hq
      rw [List.mem_filter] at hmem
      obtain ⟨hamem, hcond⟩ := hmem
      simp only [Bool.and_eq_true, Bool.not_eq_true'] at hcond
      obtain ⟨hterm_s, hterm_f⟩ := eligible_no_terminal now a hcond.1
      unfold workerIteration at hb
      rw [hc] at hb
      subst hdb1
      simp only [commitTx] at hb
      cases hw : w.is_success with
      | true =>
          rw [processAttempt_attempts_success _ a wid wver w now hw] at hb
          simp only [List.mem_map] at hb
          obtain ⟨r, hrm, hrb⟩ := hb
          by_cases hid : r.id = a.id
          · have hra : r = a :=
              List.inj_on_of_nodup_map hnodup hrm hamem hid
            subst hra
            rw [if_pos hid] at hrb
            subst hrb
            simp [attemptInvariant, hterm_f]
          · rw [if_neg hid] at hrb
            subst hrb
            exact hinv r hrm
      | false =>
          rw [processAttempt_attempts_failure _ a wid wver w now hw] at hb
          rcases List.mem_append.mp hb with hb | hb
          · simp only [List.mem_map] at hb
            obtain ⟨r, hrm, hrb⟩ := hb
            by_cases hid : r.id = a.id
            · have hra : r = a :=
                List.inj_on_of_nodup_map hnodup hrm hamem hid
              subst hra
              rw [if_pos hid] at hrb
              subst hrb
              simp [attemptInvariant, hterm_s]
            · rw [if_neg hid] at hrb
              subst hrb
              exact hinv r hrm
          · rw [List.mem_singleton.mp hb]
            simp [attemptInvariant]

/-- Witness for C7 at a concrete store: the failed row produced by a failing
iteration on exDB1 still satisfies the invariant. -/
theorem worker_iteration_preserves_invariant_witness :
    attemptInvariant att1_failed :=
  worker_iteration_preserves_invariant exDB1 "w1" "1.0" wFailure 100
    (by decide) (by decide) att1_failed (by decide)

/-- C5: the failure path evaluated at the failing input retry_count = 0.
The worker sets failed_at on the claimed attempt and inserts exactly one
successor carrying event_id and subscription_id over with retry_count
incremented, as the claim states; but the delay of the successor is
statement_timestamp + retry_in(0) = statement_timestamp + 0 seconds,
whereas the claimed backoff(0) is 5 seconds. -/
theorem worker_failure_retry_schedule_at_zero :
    (workerIteration exDB1 "w1" "1.0" wFailure 100).attempts =
      [att1_failed, att1_retry] ∧
    att1_failed.failed_at = some 100 ∧
    att1_failed.succeeded_at = none ∧
    att1_retry.event_id = att1.event_id ∧
    att1_retry.subscription_id = att1.subscription_id ∧
    att1_retry.retry_count = att1.retry_count + 1 ∧
    att1_retry.delay_until = some (100 + retry_in att1.retry_count) ∧
    retry_in att1.retry_count = 0 ∧
    backoff_spec 0 = 5 := by
  decide

/-! ## Theorems: ingest -/

/-- Splitting on a separator that does not occur returns the whole input as
the single chunk. -/
theorem splitOnChar_not_mem (sep : Char) : ∀ (l : List Char), sep ∉ l →
    splitOnChar sep l = [l]
  | [], _ => rfl
  | c :: rest, h => by
      have hc : ¬(c = sep) := fun hcs => h (by simp [hcs])
      have hrest : sep ∉ rest := fun hm => h (List.mem_cons_of_mem c hm)
      simp only [splitOnChar, if_neg hc, splitOnChar_not_mem sep rest hrest]

/-- A string without any dot never parses as an IPv4 network: the dotted
quad needs four octet chunks. -/
theorem ipnetwork_from_str_no_dot (cs : List Char) (h : '.' ∉ cs) :
    ipnetwork_from_str cs = none := by
  unfold ipnetwork_from_str
  rw [splitOnChar_not_mem '.' cs h]
  simp only [List.map_cons, List.map_nil]
  cases parseOctet cs <;> rfl

/-- C10: for a peer address that is an IPv6 literal (it contains a colon,
and the text before its first colon contains no dot, as in every textual
IPv6 form), ingest keeps only the text before the first colon, that text
cannot parse as an IP, and the request is rejected with
InternalServerError even though the secret is valid and all four body
validations pass. -/
theorem ingest_rejects_ipv6_peer (store : Store) (body : EventPost) (peer : String)
    (now : Nat) (insertOk commitOk : Bool) (s : ApplicationSecret)
    (hsecret : findSecret store body = some s)
    (hct : content_type_ok store body = true)
    (hpay : (base64_decode body.payload).isSome = true)
    (hmd : metadata_ok body = true)
    (hlb : labels_ok body = true)
    (_hcolon : ':' ∈ peer.data)
    (hnodot : '.' ∉ firstChunk ':' peer.data) :
    ingest store body (some peer) now insertOk commitOk =
      (store, .error .InternalServerError) := by
  obtain ⟨p, hp⟩ := Option.isSome_iff_exists.mp hpay
  have hip : extract_ip (some peer) = .error .InternalServerError := by
    simp only [extract_ip, ipnetwork_from_str_no_dot _ hnodot]
  unfold ingest
  simp only [hsecret, hct, hp, hmd, hlb, hip]

/-- Witness for C10 at a concrete input: peer ::1 with a valid secret and a
fully valid body is rejected with InternalServerError. -/
theorem ingest_rejects_ipv6_peer_witness :
    ingest exStore exBody (some "::1") 42 true true =
      (exStore, .error .InternalServerError) :=
  ingest_rejects_ipv6_peer exStore exBody "::1" 42 true true exSecret
    (by decide) (by decide) (by decide) rfl rfl (by decide) (by decide)

/-- C3: with a valid secret, the error of ingest is decided by the fixed
priority order of the four validation outcomes: an unregistered content
type wins over everything, then an undecodable payload, then non-object
metadata, then non-object labels.  In this pure model the four checks are
total functions of the request, computed before the branch, exactly as the
Rust handler computes all four values before its match. -/
theorem ingest_validation_priority (store : Store) (body : EventPost)
    (realip : Option String) (now : Nat) (insertOk commitOk : Bool)
    (s : ApplicationSecret) (hsecret : findSecret store body = some s) :
    (content_type_ok store body = false →
      (ingest store body realip now insertOk commitOk).2 =
        .error .EventInvalidPayloadContentType) ∧
    (content_type_ok store body = true →
      base64_decode body.payload = none →
      (ingest store body realip now insertOk commitOk).2 =
        .error .EventInvalidBase64Payload) ∧
    (content_type_ok store body = true →
      (base64_decode body.payload).isSome = true →
      metadata_ok body = false →
      (ingest store body realip now insertOk commitOk).2 =
        .error .EventInvalidMetadata) ∧
    (content_type_ok store body = true →
      (base64_decode body.payload).isSome = true →
      metadata_ok body = true →
      labels_ok body = false →
      (ingest store body realip now insertOk commitOk).2 =
        .error .EventInvalidLabels) := by
  refine ⟨?_, ?_, ?_, ?_⟩
  · intro h1
    unfold ingest
    cases h2 : base64_decode body.payload <;>
      cases h3 : metadata_ok body <;>
        cases h4 : labels_ok body <;>
          simp only [hsecret, h1, h2, h3, h4]
  · intro h1 h2
    unfold ingest
    cases h3 : metadata_ok body <;>
      cases h4 : labels_ok body <;>
        simp only [hsecret, h1, h2, h3, h4]
  · intro h1 h2 h3
    obtain ⟨p, hp⟩ := Option.isSome_iff_exists.mp h2
    unfold ingest
    cases h4 : labels_ok body <;>
      simp only [hsecret, h1, hp, h3, h4]
  · intro h1 h2 h3 h4
    obtain ⟨p, hp⟩ := Option.isSome_iff_exists.mp h2
    unfold ingest
    simp only [hsecret, h1, hp, h3, h4]

/-- Witness for C3 at a concrete input: exBodyBad fails the content type,
payload and labels checks at once, and the returned error is the content
type one, first in the priority order. -/
theorem ingest_validation_priority_witness :
    (ingest exStore exBodyBad (some "1.2.3.4") 42 true true).2 =
      .error .EventInvalidPayloadContentType :=
  (ingest_validation_priority exStore exBodyBad (some "1.2.3.4") 42 true true
      exSecret (by decide)).1 (by decide)

/-- C8: ingesting a body whose payload field is base64(p) stores exactly
the bytes p in the new event row, and reading the event back returns the
base64 encoding of the stored bytes, from which p is recovered unchanged:
the ingest-then-read pipeline is the identity on payload bytes. -/
theorem ingest_read_payload_round_trip (store : Store) (body : EventPost)
    (realip : Option String) (now : Nat) (p : List Nat)
    (hp : ∀ b ∈ p, b < 256)
    (hbody : body.payload = base64_encode p)
    (s : ApplicationSecret) (hsecret : findSecret store body = some s)
    (hct : content_type_ok store body = true)
    (hmd : metadata_ok body = true)
    (hlb : labels_ok body = true)
    (ip : IpNetwork) (hip : extract_ip realip = .ok ip)
    (hfresh : store.events.find? (fun e =>
        e.application_id == body.application_id &&
          e.event_id == body.event_id) = none) :
    ∃ row : EventRow,
      (ingest store body realip now true true).1.events =
        store.events ++ [row] ∧
      row.payload = p ∧
      getEvent (ingest store body realip now true true).1
          body.application_id body.event_id = .ok row.to_event ∧
      row.to_event.payload = base64_encode p ∧
      base64_decode row.to_event.payload = some p := by
  have hdec : base64_decode body.payload = some p := by
    rw [hbody]
    exact base64_decode_base64_encode p hp
  unfold ingest
  simp only [hsecret, hct, hdec, hmd, hlb, hip, if_true]
  refine ⟨_, rfl, rfl, ?_, rfl, ?_⟩
  · unfold getEvent
    rw [List.find?_append, hfresh]
    simp
  · exact base64_decode_base64_encode p hp

/-- Witness for C8 at a concrete input: ingesting exBody, whose payload is
base64 of the bytes 104 105, stores those bytes, and the read-back payload
decodes to them again. -/
theorem ingest_read_payload_round_trip_witness :
    ∃ row : EventRow,
      (ingest exStore exBody (some "1.2.3.4") 42 true true).1.events =
        exStore.events ++ [row] ∧
      row.payload = [104, 105] ∧
      getEvent (ingest exStore exBody (some "1.2.3.4") 42 true true).1
          exBody.application_id exBody.event_id = .ok row.to_event ∧
      row.to_event.payload = base64_encode [104, 105] ∧
      base64_decode row.to_event.payload = some [104, 105] :=
  ingest_read_payload_round_trip exStore exBody (some "1.2.3.4") 42 [104, 105]
    (by decide) rfl exSecret (by decide) (by decide) rfl rfl ⟨1, 2, 3, 4⟩ rfl rfl

/-- C2: the claim says every store write of ingest, the event INSERT
included, happens inside the one transaction and becomes visible only at
commit, with a rollback leaving the store unchanged.  In the code the
INSERT runs with fetch_one(&state.db), the connection pool, not the open
transaction, so the row commits on its own: evaluated at a call whose final
tx.commit() fails, ingest reports InternalServerError, yet the event row is
already committed in the store. -/
theorem ingest_insert_outside_transaction :
    (ingest exStore exBody (some "1.2.3.4") 42 true false).2 =
      .error .InternalServerError ∧
    (ingest exStore exBody (some "1.2.3.4") 42 true false).1.events =
      exStore.events ++ [exRow] ∧
    exRow.payload = [104, 105] :=
  ⟨rfl, rfl, rfl⟩

end Hook0
